import Mathlib

/-!
Verification of the pycrdt coordination layer (`src/python/pycrdt/_doc.py`)
against its natural-language specification.

The Python module `_doc.py` is shallowly embedded below.  The replicated
engine (`_pycrdt.Doc`), the transaction objects (`_transaction.py`), the
helpers of `_base.py` (`forbid_read_transaction`, `integrated_cache`) and the
anyio memory-object streams are not part of the excerpt; they are modelled
from the specification and from their documented interfaces, as noted on each
definition.
-/

namespace Pycrdt

/-- Abstract payload items stored inside one shared root type. -/
abbrev Content := List Nat

/-- The Python type of a root shared value (Text, Array, Map, ...). -/
inductive TypeTag
  | text
  | array
  | map
deriving DecidableEq, Repr

/-- Modelled from the spec: one root entry of the Engine Handle, with its
stable branch identifier, its declared type and its content. -/
structure EngineRoot where
  branch : Nat
  tag : TypeTag
  content : Content
deriving DecidableEq, Repr

/-- Modelled from the spec: the Engine Handle (`_pycrdt.Doc`), kept as its
root table plus a fresh-branch allocator.  The merge algorithm itself is out
of scope of the spec; contents merge by order-preserving union. -/
structure Engine where
  roots : List (String × EngineRoot)
  nextBranch : Nat
deriving DecidableEq, Repr

/-- A serialized root entry as it appears inside an update. -/
abbrev RootSnap := String × TypeTag × Content

/-- Modelled from the spec: a binary update, kept as the root entries it
carries. -/
abbrev Update := List RootSnap

def Engine.empty : Engine := ⟨[], 0⟩

/-- First binding of a root name in the engine root table, if any. -/
def findRoot : List (String × EngineRoot) → String → Option EngineRoot
  | [], _ => none
  | (k2, r) :: rest, k => if k2 = k then some r else findRoot rest k

/-- Replace the content of the first binding of a root name. -/
def setRootContent : List (String × EngineRoot) → String → Content →
    List (String × EngineRoot)
  | [], _, _ => []
  | (k2, r) :: rest, k, c =>
    if k2 = k then (k2, { r with content := c }) :: rest
    else (k2, r) :: setRootContent rest k c

/-- Modelled from the spec: CRDT merge of remote content into local content,
an order-preserving union (idempotent, and the identity on an empty local
side). -/
def crdtMerge (a b : Content) : Content :=
  a ++ b.filter (fun x => !(a.contains x))

/-- Modelled from the spec: `Engine.apply_update` merges every root entry
carried by the update into the root table, allocating a fresh branch for a
root not yet present. -/
def Engine.apply_update (e : Engine) (u : Update) : Engine :=
  u.foldl
    (fun acc kv =>
      match findRoot acc.roots kv.1 with
      | some r =>
        { acc with roots := setRootContent acc.roots kv.1 (crdtMerge r.content kv.2.2) }
      | none =>
        { roots := acc.roots ++ [(kv.1, ⟨acc.nextBranch, kv.2.1, kv.2.2⟩)],
          nextBranch := acc.nextBranch + 1 })
    e

/-- Modelled from the spec: `Engine.get_update` serializes the whole root
table (the full update from document creation). -/
def Engine.get_update (e : Engine) : Update :=
  e.roots.map (fun kr => (kr.1, kr.2.tag, kr.2.content))

/-- Modelled from the spec: the observable document state exported by
`get_state`, identified here with the full serialized contents. -/
def Engine.get_state (e : Engine) : Update :=
  e.get_update

/-- Modelled from the spec: `Engine.integrate` is the engine side of root
assignment (`_get_or_insert` followed by `_integrate`): the prelim content of
the assigned wrapper is inserted into the root, which is created with the
wrapper's type when absent. -/
def Engine.integrate (e : Engine) (k : String) (tag : TypeTag) (c : Content) : Engine :=
  match findRoot e.roots k with
  | some r => { e with roots := setRootContent e.roots k (r.content ++ c) }
  | none =>
    { roots := e.roots ++ [(k, ⟨e.nextBranch, tag, c⟩)],
      nextBranch := e.nextBranch + 1 }

/-- Modelled from the spec: a transaction (`_transaction.py` is not in the
excerpt): it carries an optional origin tag and a read-only flag. -/
structure Txn where
  origin : Option Nat
  readOnly : Bool
deriving DecidableEq, Repr

/-- The errors surfaced by the embedded operations, named after the spec's
error taxonomy (in the code, the first three are `RuntimeError`s and the last
two come from anyio). -/
inductive PyError
  | incompatibleOrigin
  | readOnlyTransaction
  | invalidRootKey
  | validationError
  | wouldBlock
  | brokenResource
deriving DecidableEq, Repr

/-- The state of one `Doc`: its engine, its active transaction (if any), the
optional schema-validation model paired with the twin document's engine, the
identity cache (`integrated_cache`, keyed by document guid and branch id,
mapping to the wrapper's object identity), a fresh allocator for wrapper
object identities, and the document guid. -/
structure DocState where
  engine : Engine
  txn : Option Txn
  model : Option ((Update → Bool) × Engine)
  cache : List ((Nat × Nat) × Nat)
  fresh : Nat
  guid : Nat

/-- Result of `Doc.transaction`: either the active transaction is reused, or
a new `Transaction` object is created with the requested origin. -/
inductive TxnResult
  | reused (t : Txn)
  | created (origin : Option Nat)
deriving DecidableEq, Repr

/-- Embeds `Doc.transaction` (`_doc.py` lines 116-123): reuse the ongoing
transaction after the origin-compatibility check, else create a new one. -/
def DocState.transaction (s : DocState) (origin : Option Nat) :
    Except PyError TxnResult :=
  match s.txn with
  | some t =>
    match origin with
    | some o => if some o ≠ t.origin then .error .incompatibleOrigin
                else .ok (.reused t)
    | none => .ok (.reused t)
  | none => .ok (.created origin)

/-- Modelled from the spec: `forbid_read_transaction` from `_base.py` (not in
the excerpt) fails with `ReadOnlyTransactionError` exactly when the given
transaction is read-only. -/
def forbid_read_transaction (t : Txn) : Option PyError :=
  if t.readOnly then some .readOnlyTransaction else none

/-- The transaction governing a `with self.transaction() as txn` block: the
ongoing one when present, otherwise a fresh write transaction. -/
def DocState.currentTxn (s : DocState) : Txn :=
  match s.txn with
  | some t => t
  | none => ⟨none, false⟩

/-- A key passed to `Doc.__setitem__`: a string, or any non-string object. -/
inductive PyKey
  | str (k : String)
  | other (n : Nat)
deriving DecidableEq, Repr

/-- A preliminary (not yet integrated) wrapper value: its Python object
identity, its type and its prelim content. -/
structure Prelim where
  wid : Nat
  tag : TypeTag
  content : Content
deriving DecidableEq, Repr

/-- Embeds `Doc.__setitem__` (`_doc.py` lines 212-232): reject non-string
keys, then, inside the implicit transaction, forbid read-only transactions
and integrate the value at the root slot. -/
def DocState.setitem (s : DocState) (key : PyKey) (value : Prelim) :
    DocState × Option PyError :=
  match key with
  | .other _ => (s, some .invalidRootKey)
  | .str k =>
    match forbid_read_transaction s.currentTxn with
    | some e => (s, some e)
    | none => ({ s with engine := s.engine.integrate k value.tag value.content }, none)

/-- The primary-document phase of `Doc.apply_update` (`_doc.py` lines
207-210): inside the implicit transaction, forbid read-only transactions and
delegate to the engine. -/
def DocState.applyPrimary (s : DocState) (u : Update) : DocState × Option PyError :=
  match forbid_read_transaction s.currentTxn with
  | some e => (s, some e)
  | none => ({ s with engine := s.engine.apply_update u }, none)

/-- Embeds the twin rebuild `Doc(dict(self))` of `_doc.py` line 205: a fresh
document whose roots are assigned, in order, the primary's current root
values. -/
def twinRebuild (e : Engine) : Engine :=
  e.roots.foldl (fun acc kr => acc.integrate kr.1 kr.2.tag kr.2.content) Engine.empty

/-- Embeds `Doc.apply_update` (`_doc.py` lines 186-210): when a model is
configured the update is first applied to the twin document and the result
validated - on failure the twin is rebuilt from the primary and the
validation error propagates; only then is the update applied to the primary
engine under a non-read-only transaction. -/
def DocState.apply_update (s : DocState) (u : Update) : DocState × Option PyError :=
  match s.model with
  | some (v, tw) =>
    let tw2 := tw.apply_update u
    if v tw2.get_update then
      DocState.applyPrimary { s with model := some (v, tw2) } u
    else
      ({ s with model := some (v, twinRebuild s.engine) }, some .validationError)
  | none => s.applyPrimary u

/-- Embeds `Doc.get` (`_doc.py` lines 256-270): construct a fresh instance
of the requested type, install it at the root key by assignment, and return
that freshly constructed instance.  Object creation draws a new object
identity from the allocator. -/
def DocState.get (s : DocState) (key : String) (tag : TypeTag) :
    Nat × DocState × Option PyError :=
  let value : Prelim := ⟨s.fresh, tag, []⟩
  let s1 : DocState := { s with fresh := s.fresh + 1 }
  let p := s1.setitem (.str key) value
  (value.wid, p.1, p.2)

/-- Lookup in the identity cache (`integrated_cache` of `_base.py`), keyed by
document guid and branch id. -/
def cacheFind : List ((Nat × Nat) × Nat) → Nat × Nat → Option Nat
  | [], _ => none
  | (k2, w) :: rest, k => if k2 = k then some w else cacheFind rest k

/-- The loop body of `Doc._roots` (`_doc.py` lines 293-311): walk the engine
root table; a branch already in the identity cache yields the cached wrapper,
otherwise a fresh wrapper is constructed and cached. -/
def rootsAux (g : Nat) : List (String × EngineRoot) → List ((Nat × Nat) × Nat) → Nat →
    List (String × Nat) × List ((Nat × Nat) × Nat) × Nat
  | [], c, f => ([], c, f)
  | (k, r) :: rest, c, f =>
    match cacheFind c (g, r.branch) with
    | some w =>
      match rootsAux g rest c f with
      | (tl, c2, f2) => ((k, w) :: tl, c2, f2)
    | none =>
      match rootsAux g rest (((g, r.branch), f) :: c) (f + 1) with
      | (tl, c2, f2) => ((k, f) :: tl, c2, f2)

/-- Embeds the `Doc._roots` property: the mapping from root names to wrapper
object identities, together with the updated document state (cache and
allocator). -/
def DocState.rootsView (s : DocState) : List (String × Nat) × DocState :=
  match rootsAux s.guid s.engine.roots s.cache s.fresh with
  | (res, c2, f2) => (res, { s with cache := c2, fresh := f2 })

/-- Lookup in the root-name-to-wrapper association returned by `_roots`. -/
def lookupStr : List (String × Nat) → String → Option Nat
  | [], _ => none
  | (k2, w) :: rest, k => if k2 = k then some w else lookupStr rest k

/-- Embeds `Doc.__getitem__` (`_doc.py` lines 234-247): `self._roots[key]`,
returning the wrapper for that root (or nothing, for a `KeyError`). -/
def DocState.getitem (s : DocState) (k : String) : Option Nat × DocState :=
  match s.rootsView with
  | (res, s2) => (lookupStr res k, s2)

end Pycrdt

namespace Pycrdt

/-- C1: simple smoke example of transaction reuse. -/
example :
    DocState.transaction ⟨Engine.empty, some ⟨some 1, false⟩, none, [], 0, 0⟩ (some 1) =
      .ok (.reused ⟨some 1, false⟩) := rfl

/-- C1 helper example: differing origin fails. -/
example :
    DocState.transaction ⟨Engine.empty, some ⟨some 1, false⟩, none, [], 0, 0⟩ (some 2) =
      .error .incompatibleOrigin := rfl

/-- C1: with a transaction already active on the document, `transaction(origin)`
returns that same active transaction when the supplied origin is unset or
equal to the active transaction's origin, and fails with
`IncompatibleOriginError` when the supplied origin is non-null and differs
from the active transaction's origin. -/
theorem transaction_origin_compatibility (s : DocState) (t : Txn)
    (ht : s.txn = some t) :
    (∀ o : Option Nat, o = none ∨ o = t.origin →
      s.transaction o = .ok (.reused t)) ∧
    (∀ o : Nat, some o ≠ t.origin →
      s.transaction (some o) = .error .incompatibleOrigin) := by
  constructor
  · intro o ho
    rcases ho with h | h
    · subst h; simp [DocState.transaction, ht]
    · subst h
      cases htor : t.origin with
      | none => simp [DocState.transaction, ht]
      | some a => simp [DocState.transaction, ht, htor]
  · intro o ho
    simp [DocState.transaction, ht, ho]

/-- C1 witness: concrete instantiation of the origin-compatibility theorem on
a document holding an active transaction with origin 1. -/
theorem transaction_origin_compatibility_witness :
    DocState.transaction ⟨Engine.empty, some ⟨some 1, false⟩, none, [], 0, 0⟩ (some 1) =
      .ok (.reused ⟨some 1, false⟩) ∧
    DocState.transaction ⟨Engine.empty, some ⟨some 1, false⟩, none, [], 0, 0⟩ (some 2) =
      .error .incompatibleOrigin := by
  constructor
  · exact (transaction_origin_compatibility _ ⟨some 1, false⟩ rfl).1 (some 1) (Or.inr rfl)
  · exact (transaction_origin_compatibility _ ⟨some 1, false⟩ rfl).2 2 (by decide)

end Pycrdt

namespace Pycrdt

/-- Helper: `__setitem__` never touches the wrapper-identity allocator. -/
theorem setitem_fresh (s : DocState) (k : PyKey) (v : Prelim) :
    (s.setitem k v).1.fresh = s.fresh := by
  cases k with
  | other n => rfl
  | str k =>
    simp only [DocState.setitem]
    cases forbid_read_transaction s.currentTxn <;> rfl

/-- Helper: `__setitem__` never changes the active transaction. -/
theorem setitem_txn (s : DocState) (k : PyKey) (v : Prelim) :
    (s.setitem k v).1.txn = s.txn := by
  cases k with
  | other n => rfl
  | str k =>
    simp only [DocState.setitem]
    cases forbid_read_transaction s.currentTxn <;> rfl

/-- Helper: a key bound in a root table keeps a binding after a content
update of any key. -/
theorem findRoot_setRootContent_isSome (l : List (String × EngineRoot))
    (k k2 : String) (c : Content) (h : (findRoot l k).isSome = true) :
    (findRoot (setRootContent l k2 c) k).isSome = true := by
  induction l with
  | nil => simp [findRoot] at h
  | cons hd tl ih =>
    obtain ⟨k3, r⟩ := hd
    by_cases hk : k3 = k2
    · subst hk
      simp only [setRootContent, if_pos rfl, findRoot]
      by_cases hk2 : k3 = k
      · simp [hk2]
      · simp only [findRoot, if_neg hk2] at h
        simp [hk2, h]
    · simp only [setRootContent, if_neg hk, findRoot]
      by_cases hk2 : k3 = k
      · simp [hk2]
      · simp only [findRoot, if_neg hk2] at h
        simp [hk2, ih h]

/-- Helper: looking up a key absent from the first part of an appended root
table falls through to the second part. -/
theorem findRoot_append_of_none (l l2 : List (String × EngineRoot)) (k : String)
    (h : findRoot l k = none) : findRoot (l ++ l2) k = findRoot l2 k := by
  induction l with
  | nil => simp
  | cons hd tl ih =>
    obtain ⟨k3, r⟩ := hd
    by_cases hk : k3 = k
    · simp [findRoot, hk] at h
    · simp only [findRoot, if_neg hk] at h
      simpa [findRoot, if_neg hk] using ih h

/-- Helper: after integrating a value at a root key, that key is bound in the
engine root table. -/
theorem findRoot_integrate_isSome (e : Engine) (k : String) (tg : TypeTag)
    (c : Content) : (findRoot (e.integrate k tg c).roots k).isSome = true := by
  unfold Engine.integrate
  cases hf : findRoot e.roots k with
  | some r =>
    exact findRoot_setRootContent_isSome _ _ _ _ (by simp [hf])
  | none =>
    simp [findRoot_append_of_none _ _ _ hf, findRoot]

/-- C10: `Doc.get(key, type=T)` always constructs a fresh instance and
returns it: its object identity is the freshly allocated one, a second call
returns a distinct object, and the freshly constructed value has been
installed at the root key by assignment. -/
theorem get_constructs_fresh_instance (s : DocState) (k k2 : String)
    (tg tg2 : TypeTag) (h : s.currentTxn.readOnly = false) :
    (s.get k tg).1 = s.fresh ∧
    ((s.get k tg).2.1.get k2 tg2).1 = s.fresh + 1 ∧
    (s.get k tg).1 ≠ ((s.get k tg).2.1.get k2 tg2).1 ∧
    (findRoot (s.get k tg).2.1.engine.roots k).isSome = true := by
  refine ⟨rfl, ?_, ?_, ?_⟩
  · show ((s.get k tg).2.1).fresh = s.fresh + 1
    have := setitem_fresh { s with fresh := s.fresh + 1 } (.str k) ⟨s.fresh, tg, []⟩
    simpa [DocState.get] using this
  · have h2 : ((s.get k tg).2.1.get k2 tg2).1 = s.fresh + 1 := by
      show ((s.get k tg).2.1).fresh = s.fresh + 1
      have := setitem_fresh { s with fresh := s.fresh + 1 } (.str k) ⟨s.fresh, tg, []⟩
      simpa [DocState.get] using this
    have h1 : (s.get k tg).1 = s.fresh := rfl
    omega
  · have hc : ({ s with fresh := s.fresh + 1 } : DocState).currentTxn.readOnly = false := by
      simpa [DocState.currentTxn] using h
    show (findRoot
      (({ s with fresh := s.fresh + 1 } : DocState).setitem (.str k) ⟨s.fresh, tg, []⟩).1.engine.roots k).isSome = true
    simp only [DocState.setitem, forbid_read_transaction, hc, if_neg Bool.false_ne_true]
    exact findRoot_integrate_isSome _ _ _ _

/-- C10 witness: on a fresh document, `get` twice at the same key returns two
distinct freshly constructed wrappers, and the root is installed. -/
theorem get_constructs_fresh_instance_witness :
    (DocState.get ⟨Engine.empty, none, none, [], 0, 0⟩ "a" TypeTag.map).1 = 0 ∧
    ((DocState.get ⟨Engine.empty, none, none, [], 0, 0⟩ "a" TypeTag.map).2.1.get "a" TypeTag.map).1 = 1 ∧
    (DocState.get ⟨Engine.empty, none, none, [], 0, 0⟩ "a" TypeTag.map).1 ≠
      ((DocState.get ⟨Engine.empty, none, none, [], 0, 0⟩ "a" TypeTag.map).2.1.get "a" TypeTag.map).1 ∧
    (findRoot (DocState.get ⟨Engine.empty, none, none, [], 0, 0⟩ "a" TypeTag.map).2.1.engine.roots "a").isSome = true :=
  get_constructs_fresh_instance ⟨Engine.empty, none, none, [], 0, 0⟩ "a" "a"
    TypeTag.map TypeTag.map rfl

/-- C8 counterexample: the empty-string root name is accepted by
`Doc.__setitem__`: no error is raised and the root is created under the key
of the empty string, contradicting the claim that an empty-string name is
rejected. -/
theorem empty_root_key_accepted :
    (DocState.setitem ⟨Engine.empty, none, none, [], 0, 0⟩ (PyKey.str "")
      ⟨5, TypeTag.text, [1]⟩).2 = none ∧
    findRoot (DocState.setitem ⟨Engine.empty, none, none, [], 0, 0⟩ (PyKey.str "")
      ⟨5, TypeTag.text, [1]⟩).1.engine.roots "" = some ⟨0, TypeTag.text, [1]⟩ :=
  ⟨rfl, rfl⟩

/-- C8 (amended): `Doc.__setitem__` rejects any non-string key immediately
with `InvalidRootKeyError` (a `RuntimeError` in the code), before entering a
transaction, and accepts every string key - including the empty string -
when the governing transaction is not read-only. -/
theorem root_key_validation (s : DocState) (n : Nat) (v w : Prelim) (k : String)
    (h : s.currentTxn.readOnly = false) :
    s.setitem (.other n) v = (s, some .invalidRootKey) ∧
    (s.setitem (.str k) w).2 = none := by
  refine ⟨rfl, ?_⟩
  simp [DocState.setitem, forbid_read_transaction, h]

/-- C8 witness: concrete instantiation of the root-key validation theorem on
a fresh document, a non-string key and the empty-string key. -/
theorem root_key_validation_witness :
    DocState.setitem ⟨Engine.empty, none, none, [], 0, 0⟩ (PyKey.other 7)
      ⟨5, TypeTag.text, [1]⟩ = (⟨Engine.empty, none, none, [], 0, 0⟩, some .invalidRootKey) ∧
    (DocState.setitem ⟨Engine.empty, none, none, [], 0, 0⟩ (PyKey.str "")
      ⟨5, TypeTag.text, [1]⟩).2 = none :=
  root_key_validation ⟨Engine.empty, none, none, [], 0, 0⟩ 7 ⟨5, TypeTag.text, [1]⟩
    ⟨5, TypeTag.text, [1]⟩ "" rfl

end Pycrdt

namespace Pycrdt

/-- C2 counterexample: a document configured with a schema-validation twin
and holding a read-only transaction, given an update its model rejects, fails
with `ValidationError` - not `ReadOnlyTransactionError` - because the twin
is updated and validated before the read-only check. -/
theorem read_only_mutation_wrong_error :
    (DocState.txn ⟨Engine.empty, some ⟨none, true⟩,
        some (fun ul => ul.isEmpty, Engine.empty), [], 0, 0⟩) = some ⟨none, true⟩ ∧
    (DocState.apply_update ⟨Engine.empty, some ⟨none, true⟩,
        some (fun ul => ul.isEmpty, Engine.empty), [], 0, 0⟩
        [("a", TypeTag.text, [1])]).2 = some PyError.validationError ∧
    some PyError.validationError ≠ some PyError.readOnlyTransaction :=
  ⟨rfl, rfl, by decide⟩

/-- C2 (amended): while a document holds a read-only transaction, root
assignment always fails with `ReadOnlyTransactionError` before mutating
anything, `apply_update` leaves the primary document's engine state
unchanged, and - when no schema twin is configured - `apply_update` fails
with `ReadOnlyTransactionError` before reaching the engine.  (With a schema
twin, the twin is updated and validated first, so the twin mutates and a
validation failure surfaces as `ValidationError` instead.) -/
theorem read_only_transaction_enforcement (s : DocState) (t : Txn) (k : String)
    (v : Prelim) (u : Update) (ht : s.txn = some t) (hro : t.readOnly = true) :
    s.setitem (.str k) v = (s, some .readOnlyTransaction) ∧
    (s.apply_update u).1.engine = s.engine ∧
    (s.model = none → s.apply_update u = (s, some .readOnlyTransaction)) := by
  have hcur : s.currentTxn = t := by simp [DocState.currentTxn, ht]
  have hforbid : forbid_read_transaction s.currentTxn = some .readOnlyTransaction := by
    simp [forbid_read_transaction, hcur, hro]
  refine ⟨?_, ?_, ?_⟩
  · simp [DocState.setitem, hforbid]
  · cases hm : s.model with
    | none =>
      simp [DocState.apply_update, hm, DocState.applyPrimary, hforbid]
    | some p =>
      obtain ⟨vd, tw⟩ := p
      have hcur2 : ∀ m, (DocState.currentTxn { s with model := m }) = t := by
        intro m; simp [DocState.currentTxn, ht]
      by_cases hv : vd (tw.apply_update u).get_update = true
      · simp [DocState.apply_update, hm, hv, DocState.applyPrimary,
          forbid_read_transaction, hcur2, hro]
      · simp only [Bool.not_eq_true] at hv
        simp [DocState.apply_update, hm, hv]
  · intro hm
    simp [DocState.apply_update, hm, DocState.applyPrimary, hforbid]

/-- C2 witness: concrete instantiation of the read-only enforcement theorem
on a document holding a read-only transaction and no schema twin. -/
theorem read_only_transaction_enforcement_witness :
    DocState.setitem ⟨Engine.empty, some ⟨none, true⟩, none, [], 0, 0⟩ (PyKey.str "a")
      ⟨0, TypeTag.text, [1]⟩ =
      (⟨Engine.empty, some ⟨none, true⟩, none, [], 0, 0⟩, some .readOnlyTransaction) ∧
    (DocState.apply_update ⟨Engine.empty, some ⟨none, true⟩, none, [], 0, 0⟩
      [("a", TypeTag.text, [1])]).1.engine = Engine.empty ∧
    ((⟨Engine.empty, some ⟨none, true⟩, none, [], 0, 0⟩ : DocState).model = none →
      DocState.apply_update ⟨Engine.empty, some ⟨none, true⟩, none, [], 0, 0⟩
        [("a", TypeTag.text, [1])] =
        (⟨Engine.empty, some ⟨none, true⟩, none, [], 0, 0⟩, some .readOnlyTransaction)) :=
  read_only_transaction_enforcement ⟨Engine.empty, some ⟨none, true⟩, none, [], 0, 0⟩
    ⟨none, true⟩ "a" ⟨0, TypeTag.text, [1]⟩ [("a", TypeTag.text, [1])] rfl rfl

/-- C4: with a schema-validation twin configured, `apply_update` first
applies the update to the twin and validates it; on validation failure the
twin is rebuilt from the primary's current contents and `ValidationError`
propagates with the primary engine untouched; on success the update is
applied to the primary engine. -/
theorem schema_twin_validation (s : DocState) (u : Update) (v : Update → Bool)
    (tw : Engine) (hm : s.model = some (v, tw)) :
    (v (tw.apply_update u).get_update = false →
      s.apply_update u =
        ({ s with model := some (v, twinRebuild s.engine) }, some .validationError)) ∧
    (v (tw.apply_update u).get_update = true → s.currentTxn.readOnly = false →
      s.apply_update u =
        ({ s with engine := s.engine.apply_update u,
                  model := some (v, tw.apply_update u) }, none)) := by
  constructor
  · intro hv
    simp [DocState.apply_update, hm, hv]
  · intro hv hro
    have hcur : (DocState.currentTxn { s with model := some (v, tw.apply_update u) }) =
        s.currentTxn := by
      simp [DocState.currentTxn]
    simp [DocState.apply_update, hm, hv, DocState.applyPrimary,
      forbid_read_transaction, hcur, hro]

/-- C4 witness: a twin-validated document whose model rejects every
non-empty content: applying a non-trivial update fails with
`ValidationError`, the twin is rebuilt from the (empty) primary, and the
primary engine is unchanged. -/
theorem schema_twin_validation_witness :
    DocState.apply_update ⟨Engine.empty, none,
      some (fun ul => ul.isEmpty, Engine.empty), [], 0, 0⟩ [("a", TypeTag.text, [1])] =
      ({ (⟨Engine.empty, none, some (fun ul => ul.isEmpty, Engine.empty), [], 0, 0⟩ : DocState)
          with model := some ((fun ul => ul.isEmpty),
            twinRebuild (⟨Engine.empty, none,
              some (fun ul => ul.isEmpty, Engine.empty), [], 0, 0⟩ : DocState).engine) },
        some .validationError) :=
  (schema_twin_validation ⟨Engine.empty, none,
      some (fun ul => ul.isEmpty, Engine.empty), [], 0, 0⟩ [("a", TypeTag.text, [1])]
      (fun ul => ul.isEmpty) Engine.empty rfl).1 rfl

end Pycrdt

namespace Pycrdt

/-- Helper: the `_roots` walk never displaces an existing identity-cache
binding: a key already cached keeps its wrapper. -/
theorem rootsAux_cacheFind_mono (g : Nat) (l : List (String × EngineRoot)) :
    ∀ (c : List ((Nat × Nat) × Nat)) (f : Nat) (p : Nat × Nat) (w : Nat),
      cacheFind c p = some w → cacheFind (rootsAux g l c f).2.1 p = some w := by
  induction l with
  | nil => intro c f p w h; simpa [rootsAux] using h
  | cons hd tl ih =>
    intro c f p w h
    obtain ⟨k, r⟩ := hd
    cases hc : cacheFind c (g, r.branch) with
    | some w2 =>
      have hrest := ih c f p w h
      rcases hrec : rootsAux g tl c f with ⟨tl2, cc, ff⟩
      rw [hrec] at hrest
      simp only [rootsAux, hc, hrec]
      exact hrest
    | none =>
      have hp : (g, r.branch) ≠ p := by
        intro he
        rw [he, h] at hc
        cases hc
      have h2 : cacheFind (((g, r.branch), f) :: c) p = some w := by
        simp [cacheFind, hp, h]
      have hrest := ih (((g, r.branch), f) :: c) (f + 1) p w h2
      rcases hrec : rootsAux g tl (((g, r.branch), f) :: c) (f + 1) with ⟨tl2, cc, ff⟩
      rw [hrec] at hrest
      simp only [rootsAux, hc, hrec]
      exact hrest

/-- Helper: the `_roots` walk is idempotent: run again from the cache and
allocator it produced, it returns the same wrapper assignment and changes
nothing. -/
theorem rootsAux_idem (g : Nat) (l : List (String × EngineRoot)) :
    ∀ c f res c2 f2, rootsAux g l c f = (res, c2, f2) →
      rootsAux g l c2 f2 = (res, c2, f2) := by
  induction l with
  | nil =>
    intro c f res c2 f2 h
    simp only [rootsAux, Prod.mk.injEq] at h
    obtain ⟨h1, h2, h3⟩ := h
    subst h1; subst h2; subst h3
    simp [rootsAux]
  | cons hd tl ih =>
    intro c f res c2 f2 h
    obtain ⟨k, r⟩ := hd
    cases hc : cacheFind c (g, r.branch) with
    | some w =>
      rcases hrec : rootsAux g tl c f with ⟨tl2, cc, ff⟩
      simp only [rootsAux, hc, hrec, Prod.mk.injEq] at h
      obtain ⟨h1, h2, h3⟩ := h
      subst h1; subst h2; subst h3
      have hc2 : cacheFind cc (g, r.branch) = some w := by
        have := rootsAux_cacheFind_mono g tl c f (g, r.branch) w hc
        rw [hrec] at this
        exact this
      have hrec2 := ih c f tl2 cc ff hrec
      simp [rootsAux, hc2, hrec2]
    | none =>
      rcases hrec : rootsAux g tl (((g, r.branch), f) :: c) (f + 1) with ⟨tl2, cc, ff⟩
      simp only [rootsAux, hc, hrec, Prod.mk.injEq] at h
      obtain ⟨h1, h2, h3⟩ := h
      subst h1; subst h2; subst h3
      have hc2 : cacheFind cc (g, r.branch) = some f := by
        have hstart : cacheFind (((g, r.branch), f) :: c) (g, r.branch) = some f := by
          simp [cacheFind]
        have := rootsAux_cacheFind_mono g tl (((g, r.branch), f) :: c) (f + 1)
          (g, r.branch) f hstart
        rw [hrec] at this
        exact this
      have hrec2 := ih (((g, r.branch), f) :: c) (f + 1) tl2 cc ff hrec
      simp [rootsAux, hc2, hrec2]

/-- C3: identity stability of root lookups: computing the root table twice in
a row yields the same name-to-wrapper assignment (reference equality of the
wrapper objects), the second pass changes nothing, and in particular two
successive `__getitem__` lookups of the same root name return the identical
wrapper object. -/
theorem identity_cache_root_stability (s : DocState) :
    (s.rootsView.2).rootsView.1 = s.rootsView.1 ∧
    (s.rootsView.2).rootsView.2 = s.rootsView.2 ∧
    ∀ k : String, ((s.getitem k).2.getitem k).1 = (s.getitem k).1 := by
  rcases h : rootsAux s.guid s.engine.roots s.cache s.fresh with ⟨res, c2, f2⟩
  have hidem := rootsAux_idem s.guid s.engine.roots s.cache s.fresh res c2 f2 h
  have hview : s.rootsView = (res, { s with cache := c2, fresh := f2 }) := by
    simp [DocState.rootsView, h]
  have hview2 : ({ s with cache := c2, fresh := f2 } : DocState).rootsView =
      (res, { s with cache := c2, fresh := f2 }) := by
    simp [DocState.rootsView, hidem]
  refine ⟨?_, ?_, ?_⟩
  · rw [hview, hview2]
  · rw [hview, hview2]
  · intro k
    simp [DocState.getitem, hview, hview2]

end Pycrdt

namespace Pycrdt

/-- Modelled from anyio's documented interface: one memory-object send
stream, with its object identity, its bounded capacity (none models an
unbounded `max_buffer_size`), its pending buffer (oldest first) and whether
the paired receive stream has been torn down. -/
structure SendStream where
  sid : Nat
  capacity : Option Nat
  buffer : List Nat
  receiverClosed : Bool
deriving DecidableEq, Repr

/-- Modelled from anyio's documented interface: `send_nowait` fails with
`BrokenResourceError` when the paired receive stream is closed, fails with
`WouldBlock` when a bounded buffer is full, and otherwise appends the item
to the buffer. -/
def send_nowait (s : SendStream) (e : Nat) : Except PyError SendStream :=
  if s.receiverClosed then .error .brokenResource
  else
    match s.capacity with
    | some cap =>
      if cap ≤ s.buffer.length then .error .wouldBlock
      else .ok { s with buffer := s.buffer ++ [e] }
    | none => .ok { s with buffer := s.buffer ++ [e] }

/-- Whether a send stream can accept one more event without blocking. -/
def hasRoom (s : SendStream) : Bool :=
  match s.capacity with
  | none => true
  | some cap => s.buffer.length < cap

/-- The event-bus part of a `Doc`'s state: the send streams and the native
subscription flag for each event kind (`False` = transaction events, `True` =
subdocs events, mirroring the boolean-keyed dictionaries of `_doc.py`), plus
an allocator for stream object identities. -/
structure BusState where
  streamsF : List SendStream
  streamsT : List SendStream
  subF : Bool
  subT : Bool
  nextSid : Nat
deriving DecidableEq, Repr

def BusState.streams (b : BusState) (k : Bool) : List SendStream :=
  if k then b.streamsT else b.streamsF

def BusState.subscribed (b : BusState) (k : Bool) : Bool :=
  if k then b.subT else b.subF

def BusState.setStreams (b : BusState) (k : Bool) (l : List SendStream) : BusState :=
  if k then { b with streamsT := l } else { b with streamsF := l }

def BusState.setSub (b : BusState) (k : Bool) (v : Bool) : BusState :=
  if k then { b with subT := v } else { b with subF := v }

@[simp] theorem streams_withNextSid (b : BusState) (n : Nat) (k : Bool) :
    (({ b with nextSid := n } : BusState)).streams k = b.streams k := by
  cases k <;> rfl

@[simp] theorem subscribed_withNextSid (b : BusState) (n : Nat) (k : Bool) :
    (({ b with nextSid := n } : BusState)).subscribed k = b.subscribed k := by
  cases k <;> rfl

@[simp] theorem streams_setStreams (b : BusState) (k k2 : Bool) (l : List SendStream) :
    (b.setStreams k l).streams k2 = if k2 = k then l else b.streams k2 := by
  cases k <;> cases k2 <;> simp [BusState.setStreams, BusState.streams]

@[simp] theorem subscribed_setStreams (b : BusState) (k k2 : Bool) (l : List SendStream) :
    (b.setStreams k l).subscribed k2 = b.subscribed k2 := by
  cases k <;> cases k2 <;> rfl

@[simp] theorem streams_setSub (b : BusState) (k k2 : Bool) (v : Bool) :
    (b.setSub k v).streams k2 = b.streams k2 := by
  cases k <;> cases k2 <;> rfl

@[simp] theorem subscribed_setSub (b : BusState) (k k2 : Bool) (v : Bool) :
    (b.setSub k v).subscribed k2 = if k2 = k then v else b.subscribed k2 := by
  cases k <;> cases k2 <;> simp [BusState.setSub, BusState.subscribed]

theorem setStreams_self (b : BusState) (k : Bool) :
    b.setStreams k (b.streams k) = b := by
  cases k <;> rfl

/-- Embeds `Doc.events` (`_doc.py` lines 365-406): on the first subscription
of a kind, register the native callback for that kind; then create a new
memory-object stream of the requested capacity and add its send side to the
set for that kind, handing the receive side (its identity) to the caller. -/
def BusState.events (b : BusState) (k : Bool) (cap : Option Nat) : BusState × Nat :=
  let b1 := if (b.streams k).isEmpty then b.setSub k true else b
  ({ b1.setStreams k (b1.streams k ++ [⟨b1.nextSid, cap, [], false⟩]) with
      nextSid := b1.nextSid + 1 }, b1.nextSid)

/-- Embeds the loop of `Doc._send_event` (`_doc.py` lines 408-418): walk the
send streams, `send_nowait` to each; a `BrokenResourceError` marks the stream
for removal; any other failure propagates immediately, leaving the remaining
streams unvisited.  Returns the stream list as mutated by the loop (the
exception path), the stream list with the broken ones removed (the normal
path) and the propagated error, if any. -/
def sendLoop (e : Nat) : List SendStream → List SendStream × List SendStream × Option PyError
  | [] => ([], [], none)
  | s :: rest =>
    match send_nowait s e with
    | .ok s2 =>
      match sendLoop e rest with
      | (m, kept, err) => (s2 :: m, s2 :: kept, err)
    | .error .brokenResource =>
      match sendLoop e rest with
      | (m, kept, err) => (s :: m, kept, err)
    | .error er => (s :: rest, s :: rest, some er)

/-- Embeds `Doc._send_event` (`_doc.py` lines 408-420): deliver the event to
every stream of the kind; on normal completion close and remove the broken
streams and, when none remain, unregister the native callback for the kind. -/
def BusState.send_event (b : BusState) (k : Bool) (e : Nat) : BusState × Option PyError :=
  match sendLoop e (b.streams k) with
  | (m, _, some er) => (b.setStreams k m, some er)
  | (_, kept, none) =>
    if kept.isEmpty then ((b.setStreams k kept).setSub k false, none)
    else (b.setStreams k kept, none)

/-- A consumer tearing down its receive stream: from then on the paired send
stream fails with `BrokenResourceError` on the producer side. -/
def BusState.teardown (b : BusState) (k : Bool) (i : Nat) : BusState :=
  b.setStreams k
    ((b.streams k).map (fun s => if s.sid = i then { s with receiverClosed := true } else s))

/-- The event bus of a fresh document: no streams, no native subscriptions. -/
def BusState.init : BusState := ⟨[], [], false, false, 0⟩

/-- The bus states reachable from a fresh document through stream
subscriptions, native event firings and consumer teardowns. -/
inductive BusReach : BusState → Prop
  | init : BusReach BusState.init
  | events (b : BusState) (k : Bool) (cap : Option Nat) :
      BusReach b → BusReach (b.events k cap).1
  | send (b : BusState) (k : Bool) (e : Nat) :
      BusReach b → BusReach (b.send_event k e).1
  | teardown (b : BusState) (k : Bool) (i : Nat) :
      BusReach b → BusReach (b.teardown k i)

/-- C5 counterexample: a bounded subscriber queue that is already full (one
live consumer, capacity 1, one pending event): the producer-side send raises
`WouldBlock` out of the producer path and the queue is kept, not evicted -
contradicting the claim that a full queue is evicted without raising. -/
theorem full_queue_kept_and_raises :
    BusState.send_event ⟨[⟨0, some 1, [3], false⟩], [], true, false, 1⟩ false 4 =
      (⟨[⟨0, some 1, [3], false⟩], [], true, false, 1⟩, some PyError.wouldBlock) := by
  decide

/-- C5 (amended): the producer-side send never blocks, and the
enqueue-or-evict policy only covers an abandoned consumer: a stream whose
receive side was torn down is evicted (without error); a stream whose
bounded queue is merely full makes `send_nowait` raise `WouldBlock`, which
propagates out of the producer path with the stream set unchanged. -/
theorem producer_overflow_policy (b : BusState) (k : Bool) (e : Nat)
    (s0 : SendStream) (hs : b.streams k = [s0]) :
    (s0.receiverClosed = false → hasRoom s0 = false →
      b.send_event k e = (b, some .wouldBlock)) ∧
    (s0.receiverClosed = true →
      b.send_event k e = ((b.setStreams k []).setSub k false, none)) := by
  constructor
  · intro hcl hroom
    obtain ⟨cap, hcap, hle⟩ : ∃ cap, s0.capacity = some cap ∧ cap ≤ s0.buffer.length := by
      cases hcap : s0.capacity with
      | none => simp [hasRoom, hcap] at hroom
      | some cap =>
        refine ⟨cap, rfl, ?_⟩
        simpa [hasRoom, hcap] using hroom
    have hnw : send_nowait s0 e = .error .wouldBlock := by
      simp [send_nowait, hcl, hcap, hle]
    have hloop : sendLoop e [s0] = ([s0], [s0], some .wouldBlock) := by
      simp [sendLoop, hnw]
    simp only [BusState.send_event, hs, hloop]
    rw [← hs, setStreams_self]
  · intro hcl
    have hnw : send_nowait s0 e = .error .brokenResource := by
      simp [send_nowait, hcl]
    have hloop : sendLoop e [s0] = ([s0], [], none) := by
      simp [sendLoop, hnw]
    simp [BusState.send_event, hs, hloop]

/-- C5 witness: concrete instantiations of the overflow policy: a full live
queue is kept while `WouldBlock` propagates, and a torn-down queue is evicted
with the native callback unregistered. -/
theorem producer_overflow_policy_witness :
    BusState.send_event ⟨[⟨0, some 2, [3, 3], false⟩], [], true, false, 1⟩ false 4 =
      (⟨[⟨0, some 2, [3, 3], false⟩], [], true, false, 1⟩, some .wouldBlock) ∧
    BusState.send_event ⟨[⟨0, none, [], true⟩], [], true, false, 1⟩ false 4 =
      (((⟨[⟨0, none, [], true⟩], [], true, false, 1⟩ : BusState).setStreams false []).setSub
        false false, none) := by
  constructor
  · exact (producer_overflow_policy ⟨[⟨0, some 2, [3, 3], false⟩], [], true, false, 1⟩
      false 4 ⟨0, some 2, [3, 3], false⟩ rfl).1 rfl rfl
  · exact (producer_overflow_policy ⟨[⟨0, none, [], true⟩], [], true, false, 1⟩
      false 4 ⟨0, none, [], true⟩ rfl).2 rfl

end Pycrdt

namespace Pycrdt

/-- Helper: when every live stream has room, the delivery loop succeeds:
every live stream gets the event appended at the end of its buffer, broken
streams are marked for removal, and no error propagates. -/
theorem sendLoop_all_ok (e : Nat) (l : List SendStream)
    (h : ∀ s ∈ l, s.receiverClosed = false → hasRoom s = true) :
    sendLoop e l =
      (l.map (fun s => if s.receiverClosed then s
        else { s with buffer := s.buffer ++ [e] }),
       l.filterMap (fun s => if s.receiverClosed then none
        else some { s with buffer := s.buffer ++ [e] }),
       none) := by
  induction l with
  | nil => rfl
  | cons s rest ih =>
    have ihr := ih (fun s2 hs2 hc => h s2 (List.mem_cons_of_mem _ hs2) hc)
    by_cases hcl : s.receiverClosed = true
    · have hnw : send_nowait s e = .error .brokenResource := by
        simp [send_nowait, hcl]
      simp [sendLoop, hnw, ihr, hcl]
    · have hcl2 : s.receiverClosed = false := by
        simpa using hcl
      have hroom := h s (List.mem_cons_self s rest) hcl2
      have hnw : send_nowait s e = .ok { s with buffer := s.buffer ++ [e] } := by
        simp only [send_nowait, hcl2, Bool.false_eq_true, if_false]
        cases hcap : s.capacity with
        | none => rfl
        | some cap =>
          have hlt : s.buffer.length < cap := by
            simpa [hasRoom, hcap] using hroom
          simp [Nat.not_le.mpr hlt]
      simp [sendLoop, hnw, ihr, hcl2]

/-- C6 counterexample: two live subscriber queues of the same kind, the
first bounded and full, the second empty: firing a native event delivers the
event to neither queue (the full one makes `send_nowait` raise `WouldBlock`,
aborting delivery before the second queue is visited) - contradicting the
claim that each firing delivers the event exactly once to every live
queue. -/
theorem fanout_skips_live_queue :
    BusState.send_event
        ⟨[⟨0, some 1, [9], false⟩, ⟨1, none, [], false⟩], [], true, false, 2⟩ false 7 =
      (⟨[⟨0, some 1, [9], false⟩, ⟨1, none, [], false⟩], [], true, false, 2⟩,
        some PyError.wouldBlock) := by
  decide

/-- C6 (amended): provided every live queue of the kind has spare capacity
(its consumer is keeping up), a native event firing delivers the event
exactly once to every live queue, appended in commit order at the end of its
buffer with no reordering, duplication or drop; queues whose consumer has
been torn down are evicted during delivery without affecting delivery to the
other queues; queues of the other kind are untouched.  (When some live
bounded queue is full, `WouldBlock` aborts delivery instead.) -/
theorem event_fanout_delivery (b : BusState) (k : Bool) (e : Nat)
    (h : ∀ s ∈ b.streams k, s.receiverClosed = false → hasRoom s = true) :
    (b.send_event k e).2 = none ∧
    (b.send_event k e).1.streams k =
      (b.streams k).filterMap (fun s => if s.receiverClosed then none
        else some { s with buffer := s.buffer ++ [e] }) ∧
    (b.send_event k e).1.streams (!k) = b.streams (!k) := by
  have hl := sendLoop_all_ok e (b.streams k) h
  have hnk : (!k) = k ↔ False := by cases k <;> simp
  by_cases hke : ((b.streams k).filterMap (fun s => if s.receiverClosed then none
      else some { s with buffer := s.buffer ++ [e] })).isEmpty
  · simp [BusState.send_event, hl, hke, hnk]
  · simp [BusState.send_event, hl, hke, hnk]

/-- C6 witness: a bus with one live unbounded queue and one torn-down queue
of the commit kind: the firing is delivered once to the live queue and the
torn-down queue is evicted. -/
theorem event_fanout_delivery_witness :
    (BusState.send_event
        ⟨[⟨0, none, [5], false⟩, ⟨1, none, [], true⟩], [], true, false, 2⟩ false 7).2 = none ∧
    (BusState.send_event
        ⟨[⟨0, none, [5], false⟩, ⟨1, none, [], true⟩], [], true, false, 2⟩ false 7).1.streams
        false =
      ([⟨0, none, [5], false⟩, ⟨1, none, [], true⟩] :
        List SendStream).filterMap (fun s => if s.receiverClosed then none
          else some { s with buffer := s.buffer ++ [7] }) ∧
    (BusState.send_event
        ⟨[⟨0, none, [5], false⟩, ⟨1, none, [], true⟩], [], true, false, 2⟩ false 7).1.streams
        (!false) =
      (⟨[⟨0, none, [5], false⟩, ⟨1, none, [], true⟩], [], true, false, 2⟩ :
        BusState).streams (!false) :=
  event_fanout_delivery
    ⟨[⟨0, none, [5], false⟩, ⟨1, none, [], true⟩], [], true, false, 2⟩ false 7 (by decide)

end Pycrdt

namespace Pycrdt

/-- Helper: the delivery loop never changes how many streams exist (eviction
only happens after the loop completes without error). -/
theorem sendLoop_fst_length (e : Nat) (l : List SendStream) :
    (sendLoop e l).1.length = l.length := by
  induction l with
  | nil => rfl
  | cons s rest ih =>
    rcases hr : sendLoop e rest with ⟨m, kept, err⟩
    rw [hr] at ih
    cases hnw : send_nowait s e with
    | ok s2 => simp [sendLoop, hnw, hr, ih]
    | error er =>
      cases er <;> simp [sendLoop, hnw, hr, ih]

/-- Helper: an empty stream list makes the delivery loop a no-op. -/
theorem sendLoop_nil (e : Nat) : sendLoop e [] = ([], [], none) := rfl

/-- C7: over every reachable bus state, the native callback for an event
kind is registered if and only if the set of send streams of that kind is
non-empty: the first subscription of a kind registers it, later
subscriptions share it, and when the last queue of the kind is evicted it is
unregistered. -/
theorem native_callback_iff_subscribers (b : BusState) (h : BusReach b) :
    ∀ k : Bool, b.subscribed k = true ↔ b.streams k ≠ [] := by
  induction h with
  | init =>
    intro k
    cases k <;> simp [BusState.init, BusState.streams, BusState.subscribed]
  | events b0 k cap hb ih =>
    intro k2
    by_cases hke : (b0.streams k).isEmpty
    · by_cases hk : k2 = k
      · subst hk
        simp [BusState.events, hke]
      · simp [BusState.events, hke, hk, ih k2]
    · have hne : b0.streams k ≠ [] := by
        simpa [List.isEmpty_iff] using hke
      by_cases hk : k2 = k
      · subst hk
        simp [BusState.events, hke, (ih k2).mpr hne]
      · simp [BusState.events, hke, hk, ih k2]
  | send b0 k e hb ih =>
    intro k2
    rcases hl : sendLoop e (b0.streams k) with ⟨m, kept, err⟩
    cases err with
    | some er =>
      by_cases hk : k2 = k
      · subst hk
        have hlen := sendLoop_fst_length e (b0.streams k2)
        rw [hl] at hlen
        simp only [BusState.send_event, hl, streams_setStreams, subscribed_setStreams,
          eq_self_iff_true, if_true]
        rw [ih k2]
        constructor
        · intro hne hm
          apply hne
          rw [hm] at hlen
          exact List.length_eq_zero.mp hlen.symm
        · intro hm hne
          apply hm
          rw [hne] at hlen
          exact List.length_eq_zero.mp hlen
      · simp [BusState.send_event, hl, hk, ih k2]
    | none =>
      by_cases hke : kept.isEmpty
      · have hkeq : kept = [] := by simpa [List.isEmpty_iff] using hke
        subst hkeq
        by_cases hk : k2 = k
        · subst hk
          simp [BusState.send_event, hl]
        · simp [BusState.send_event, hl, hk, ih k2]
      · have hkne : kept ≠ [] := by simpa [List.isEmpty_iff] using hke
        by_cases hk : k2 = k
        · subst hk
          have hsne : b0.streams k2 ≠ [] := by
            intro h0
            rw [h0, sendLoop_nil] at hl
            exact hkne (by injection hl with h1 h2; injection h2 with h3 h4; exact h3.symm)
          simp [BusState.send_event, hl, hke, (ih k2).mpr hsne, hkne]
        · simp [BusState.send_event, hl, hke, hk, ih k2]
  | teardown b0 k i hb ih =>
    intro k2
    by_cases hk : k2 = k
    · subst hk
      simp only [BusState.teardown, streams_setStreams, subscribed_setStreams, if_pos rfl]
      rw [ih k2]
      simp [List.map_eq_nil_iff]
    · simp [BusState.teardown, hk, ih k2]

/-- C7 witness: the bus reached by a fresh document after one `events()`
subscription of the commit kind satisfies the registered-iff-non-empty
invariant. -/
theorem native_callback_iff_subscribers_witness :
    ((BusState.init.events false none).1.subscribed false = true ↔
      (BusState.init.events false none).1.streams false ≠ []) :=
  native_callback_iff_subscribers (BusState.init.events false none).1
    (BusReach.events BusState.init false none BusReach.init) false

end Pycrdt

namespace Pycrdt

/-- Embeds `Doc.__reduce__` (`_doc.py` lines 423-426): a document reduces to
its full update and the mapping from root names to their declared types. -/
def DocState.reduceArgs (s : DocState) : Update × List (String × TypeTag) :=
  (s.engine.get_update, s.engine.roots.map (fun kr => (kr.1, kr.2.tag)))

/-- Embeds `_rebuild_doc` (`_doc.py` lines 33-44): a fresh document, the
update applied when non-empty, then each recorded root assigned a freshly
constructed empty instance of its declared type (errors swallowed). -/
def rebuild_doc (u : Update) (rts : List (String × TypeTag)) : DocState :=
  let d0 : DocState := ⟨Engine.empty, none, none, [], 0, 1⟩
  let d1 := if u.isEmpty then d0 else (d0.apply_update u).1
  rts.foldl (fun d2 kt => (d2.setitem (.str kt.1) ⟨d2.fresh, kt.2, []⟩).1) d1

/-- Helper: applying an update whose root names are fresh and duplicate-free
appends exactly those roots to the engine. -/
theorem apply_update_fresh (u : Update) :
    ∀ e : Engine, (∀ kv ∈ u, findRoot e.roots kv.1 = none) →
      (u.map Prod.fst).Nodup →
      (e.apply_update u).get_update = e.get_update ++ u ∧
      (e.apply_update u).roots.map Prod.fst = e.roots.map Prod.fst ++ u.map Prod.fst := by
  induction u with
  | nil =>
    intro e h hnd
    constructor <;> simp [Engine.apply_update]
  | cons kv rest ih =>
    intro e h hnd
    obtain ⟨k, tg, c⟩ := kv
    have hk : findRoot e.roots k = none := h (k, tg, c) (List.mem_cons_self _ _)
    have hstep : e.apply_update ((k, tg, c) :: rest) =
        Engine.apply_update ⟨e.roots ++ [(k, ⟨e.nextBranch, tg, c⟩)], e.nextBranch + 1⟩
          rest := by
      simp only [Engine.apply_update, List.foldl_cons, hk]
    have hmem : ∀ kv2 ∈ rest, kv2.1 ≠ k := by
      intro kv2 hkv2 heq
      simp only [List.map_cons, List.nodup_cons] at hnd
      exact hnd.1 (heq ▸ List.mem_map_of_mem Prod.fst hkv2)
    have hfresh2 : ∀ kv2 ∈ rest,
        findRoot (e.roots ++ [(k, ⟨e.nextBranch, tg, c⟩)]) kv2.1 = none := by
      intro kv2 hkv2
      rw [findRoot_append_of_none _ _ _ (h kv2 (List.mem_cons_of_mem _ hkv2))]
      have hne2 : ¬(k = kv2.1) := fun he => (hmem kv2 hkv2) he.symm
      simp [findRoot, hne2]
    have hnd2 : (rest.map Prod.fst).Nodup := by
      simp only [List.map_cons, List.nodup_cons] at hnd
      exact hnd.2
    have hrest := ih ⟨e.roots ++ [(k, ⟨e.nextBranch, tg, c⟩)], e.nextBranch + 1⟩ hfresh2 hnd2
    rw [hstep]
    constructor
    · rw [hrest.1]
      simp [Engine.get_update]
    · rw [hrest.2]
      simp

/-- Helper: rewriting a root's content with its current content is the
identity on the root table. -/
theorem setRootContent_self (l : List (String × EngineRoot)) (k : String)
    (r : EngineRoot) (h : findRoot l k = some r) : setRootContent l k r.content = l := by
  induction l with
  | nil => rfl
  | cons hd tl ih =>
    obtain ⟨k2, r2⟩ := hd
    by_cases hk : k2 = k
    · subst hk
      simp only [findRoot, eq_self_iff_true, if_true, Option.some.injEq] at h
      subst h
      simp [setRootContent]
    · simp only [findRoot, if_neg hk] at h
      simp [setRootContent, hk, ih h]

/-- Helper: integrating a freshly constructed empty value at an
already-present root changes nothing in the engine. -/
theorem integrate_empty_present (e : Engine) (k : String) (tg : TypeTag)
    (r : EngineRoot) (h : findRoot e.roots k = some r) : e.integrate k tg [] = e := by
  simp only [Engine.integrate, h, List.append_nil]
  rw [setRootContent_self e.roots k r h]

/-- Helper: a name occurring among the root keys is bound in the table. -/
theorem findRoot_isSome_of_mem_keys (l : List (String × EngineRoot)) (k : String)
    (h : k ∈ l.map Prod.fst) : (findRoot l k).isSome = true := by
  induction l with
  | nil => simp at h
  | cons hd tl ih =>
    obtain ⟨k2, r⟩ := hd
    by_cases hk : k2 = k
    · simp [findRoot, hk]
    · simp only [List.map_cons, List.mem_cons] at h
      rcases h with h | h
      · exact absurd h.symm hk
      · simp [findRoot, hk, ih h]

/-- Helper: re-assigning every already-present root a freshly constructed
empty instance (the loop of `_rebuild_doc`) leaves the document unchanged. -/
theorem rebuild_setitem_foldl (rts : List (String × TypeTag)) :
    ∀ d : DocState, d.txn = none →
      (∀ kt ∈ rts, (findRoot d.engine.roots kt.1).isSome = true) →
      rts.foldl (fun d2 kt => (d2.setitem (.str kt.1) ⟨d2.fresh, kt.2, []⟩).1) d = d := by
  induction rts with
  | nil => intro d _ _; rfl
  | cons kt rest ih =>
    intro d hd h
    obtain ⟨k, tg⟩ := kt
    have hr : (findRoot d.engine.roots k).isSome = true := h (k, tg) (List.mem_cons_self _ _)
    obtain ⟨r, hr2⟩ := Option.isSome_iff_exists.mp hr
    have hforbid : forbid_read_transaction d.currentTxn = none := by
      simp [DocState.currentTxn, hd, forbid_read_transaction]
    have hset : (d.setitem (.str k) ⟨d.fresh, tg, []⟩).1 = d := by
      simp [DocState.setitem, hforbid, integrate_empty_present d.engine k tg r hr2]
    rw [List.foldl_cons, hset]
    exact ih d hd (fun kt2 h2 => h kt2 (List.mem_cons_of_mem _ h2))

/-- C9: round-trip of the serialization hook: rebuilding a document from the
pair produced by `__reduce__` - the full update and the root-name-to-type
mapping - yields a document whose exported state and root contents equal
the original's. -/
theorem reduce_rebuild_roundtrip (s : DocState)
    (hnd : (s.engine.roots.map Prod.fst).Nodup) :
    (rebuild_doc s.reduceArgs.1 s.reduceArgs.2).engine.get_state = s.engine.get_state ∧
    (rebuild_doc s.reduceArgs.1 s.reduceArgs.2).engine.get_update = s.engine.get_update := by
  have hkeys : (s.engine.get_update).map Prod.fst = s.engine.roots.map Prod.fst := by
    simp [Engine.get_update]
  by_cases hne : s.engine.roots = []
  · constructor <;>
      simp [rebuild_doc, DocState.reduceArgs, hne, Engine.get_state, Engine.get_update,
        Engine.empty]
  · have hu : (s.engine.get_update).isEmpty = false := by
      cases hroots2 : s.engine.roots with
      | nil => exact absurd hroots2 hne
      | cons a b => simp [Engine.get_update, hroots2]
    have hfresh : ∀ kv ∈ s.engine.get_update, findRoot (Engine.empty).roots kv.1 = none := by
      intro kv _
      rfl
    have hnd2 : ((s.engine.get_update).map Prod.fst).Nodup := by
      rw [hkeys]
      exact hnd
    have happly := apply_update_fresh s.engine.get_update Engine.empty hfresh hnd2
    have hd1 : rebuild_doc s.reduceArgs.1 s.reduceArgs.2 =
        (s.reduceArgs.2).foldl (fun d2 kt => (d2.setitem (.str kt.1) ⟨d2.fresh, kt.2, []⟩).1)
          ⟨Engine.empty.apply_update s.engine.get_update, none, none, [], 0, 1⟩ := by
      simp [rebuild_doc, DocState.reduceArgs, hu, DocState.apply_update,
        DocState.applyPrimary, forbid_read_transaction, DocState.currentTxn]
    have hmap : (Engine.empty.apply_update s.engine.get_update).roots.map Prod.fst =
        (s.engine.get_update).map Prod.fst := by
      have := happly.2
      simpa [Engine.empty] using this
    have hkeysall : ∀ kt ∈ s.reduceArgs.2,
        (findRoot (Engine.empty.apply_update s.engine.get_update).roots kt.1).isSome = true := by
      intro kt hkt
      apply findRoot_isSome_of_mem_keys
      rw [hmap, hkeys]
      simp only [DocState.reduceArgs] at hkt
      rcases List.mem_map.mp hkt with ⟨kr, hkr, hk⟩
      rw [← hk]
      exact List.mem_map_of_mem Prod.fst hkr
    have hfold := rebuild_setitem_foldl s.reduceArgs.2
      ⟨Engine.empty.apply_update s.engine.get_update, none, none, [], 0, 1⟩ rfl hkeysall
    rw [hd1, hfold]
    have hgu : (Engine.empty.apply_update s.engine.get_update).get_update =
        s.engine.get_update := by
      have := happly.1
      simpa [Engine.empty, Engine.get_update] using this
    exact ⟨by simpa [Engine.get_state] using hgu, hgu⟩

/-- C9 witness: a concrete document with two typed roots round-trips through
`__reduce__` and `_rebuild_doc` with its state and contents intact. -/
theorem reduce_rebuild_roundtrip_witness :
    (rebuild_doc
        (DocState.reduceArgs ⟨⟨[("a", ⟨0, TypeTag.text, [1, 2]⟩), ("b", ⟨1, TypeTag.map, []⟩)], 2⟩,
          none, none, [], 0, 0⟩).1
        (DocState.reduceArgs ⟨⟨[("a", ⟨0, TypeTag.text, [1, 2]⟩), ("b", ⟨1, TypeTag.map, []⟩)], 2⟩,
          none, none, [], 0, 0⟩).2).engine.get_state =
      Engine.get_state ⟨[("a", ⟨0, TypeTag.text, [1, 2]⟩), ("b", ⟨1, TypeTag.map, []⟩)], 2⟩ ∧
    (rebuild_doc
        (DocState.reduceArgs ⟨⟨[("a", ⟨0, TypeTag.text, [1, 2]⟩), ("b", ⟨1, TypeTag.map, []⟩)], 2⟩,
          none, none, [], 0, 0⟩).1
        (DocState.reduceArgs ⟨⟨[("a", ⟨0, TypeTag.text, [1, 2]⟩), ("b", ⟨1, TypeTag.map, []⟩)], 2⟩,
          none, none, [], 0, 0⟩).2).engine.get_update =
      Engine.get_update ⟨[("a", ⟨0, TypeTag.text, [1, 2]⟩), ("b", ⟨1, TypeTag.map, []⟩)], 2⟩ :=
  reduce_rebuild_roundtrip
    ⟨⟨[("a", ⟨0, TypeTag.text, [1, 2]⟩), ("b", ⟨1, TypeTag.map, []⟩)], 2⟩,
      none, none, [], 0, 0⟩ (by decide)

end Pycrdt
